import Mathlib

/-!
Verification of the Basic-Chatbot-Setup voice bot client.

The development shallowly embeds the pure/state-machine cores of
`src/client/voiceBot.py`, `src/client/vad.py` and `src/client/memory.py`:

* Python strings are `List Char`; `str.strip`, `str.rfind`, membership and
  slicing are re-implemented with Python semantics.
* The sentence-splitting loop of `VoiceBot.ask` (lines 77-108) becomes
  `splitAtLast` / `splitterRun` / `askEvents`; the external synthesizer is a
  parameter `tts : PyStr → List Nat` (a failure is the empty chunk list, as
  `ModelController.tts_stream_response` swallows every exception).
* The `ContinuousVAD._audio_processing_loop` frame state machine becomes
  `asmStep` / `asmRun`; a frame is a `Nat` identifier paired with the
  classifier's boolean (the WebRTC classifier is external input).
* `queue.Queue` with `put_nowait` / `except Full: drop` becomes `PyQueue` and
  `pushSegment`.
* `Memory.add_message` becomes `addMessage` over `MemoryState`.
* `VAD.run_vad` becomes `runVadLoop` / `runVad` over a finite prefix of the
  microphone stream (`none` models "the loop has not returned yet").
-/

namespace VoiceBotSpec

/-! ## Python string primitives -/

/-- Python strings, as character lists. -/
abbrev PyStr := List Char

/-- The characters `str.strip()` removes by default. -/
def isPySpace (c : Char) : Bool :=
  c == ' ' || c == '\t' || c == '\n' || c == '\r' ||
    c == Char.ofNat 11 || c == Char.ofNat 12

/-- Python `s.strip()`: drop leading and trailing whitespace. -/
def pyStrip (s : PyStr) : PyStr :=
  ((s.dropWhile isPySpace).reverse.dropWhile isPySpace).reverse

/-- Python `s.rfind(c)`: index of the last occurrence of `c`, if any. -/
def pyRFind (s : PyStr) (c : Char) : Option Nat :=
  match s with
  | [] => none
  | a :: rest =>
    match pyRFind rest c with
    | some i => some (i + 1)
    | none => if a == c then some 0 else none

/-! ## Sentence splitting (`VoiceBot.ask`, voiceBot.py lines 96-108)

The loop `for punct in '.!?': if punct in sentence_buffer: ... break`
selects the first terminator character (in the order `.`, `!`, `?`) that
occurs anywhere in the buffer and splits at the LAST occurrence of that
character (`rfind`); at most one split happens per fed chunk. -/

/-- The sentence terminators, in the order Python iterates over `'.!?'`. -/
def terminators : List Char := ['.', '!', '?']

/-- The first terminator (in iteration order) present in the buffer. -/
def firstTerminator (buf : PyStr) : Option Char :=
  terminators.find? (fun p => buf.contains p)

/-- One pass of the splitting loop: if some terminator occurs, split at the
last occurrence of the first present terminator; both pieces are stripped
(`sentence_buffer[:idx].strip()`, `sentence_buffer[idx:].strip()`). -/
def splitAtLast (buf : PyStr) : Option (PyStr × PyStr) :=
  match firstTerminator buf with
  | none => none
  | some p =>
    match pyRFind buf p with
    | some i => some (pyStrip (buf.take (i + 1)), pyStrip (buf.drop (i + 1)))
    | none => none

/-- Feed one fragment: append to the pending buffer, then split at most once;
an empty (after strip) sentence is suppressed (`if sentence:`). -/
def splitterFeed (buf chunk : PyStr) : List PyStr × PyStr :=
  let b := buf ++ chunk
  match splitAtLast b with
  | none => ([], b)
  | some (s, rest) => (if s.isEmpty then [] else [s], rest)

/-- Feed a sequence of fragments, collecting the emitted sentences and the
final pending buffer (the remainder that `flushRemainder` would return). -/
def splitterRun : PyStr → List PyStr → List PyStr × PyStr
  | buf, [] => ([], buf)
  | buf, c :: cs =>
    let out := splitterFeed buf c
    let out2 := splitterRun out.2 cs
    (out.1 ++ out2.1, out2.2)

/-- Run the splitter from an empty buffer. -/
def feedAll (chunks : List PyStr) : List PyStr × PyStr :=
  splitterRun [] chunks

/-! ## The response coordinator (`VoiceBot.ask` with `with_tts=True`,
voiceBot.py lines 62-110)

The producer task (`ai_generator`) pushes every chunk with
`chunk.strip()` truthy into `ai_queue`; the consumer loop yields the chunk
as a text-only pair, then feeds it to the sentence buffer and, when a
terminator is present, synthesizes the split-off sentence and yields each
audio chunk as an audio-only pair.  The synthesizer
(`ModelController.tts_stream_response`) is modelled as a function from the
sentence to the list of audio chunks it yields; it catches every exception,
so a failure is simply the empty list. -/

/-- One output pair of `ask`: either `(chunk, None)` or `("", audio_chunk)`. -/
inductive Ev where
  | text (s : PyStr)
  | audio (a : Nat)
deriving DecidableEq

/-- The audio-only pairs emitted for one synthesized sentence. -/
def ttsEvents (tts : PyStr → List Nat) (s : PyStr) : List Ev :=
  (tts s).map Ev.audio

/-- `s.strip()` is falsy: the chunk is whitespace-only (or empty). -/
def isBlank (s : PyStr) : Bool := (pyStrip s).isEmpty

/-- Consume one token from the queue: yield it as text, extend the sentence
buffer, and if a terminator is present synthesize the split-off sentence. -/
def coordStep (tts : PyStr → List Nat) (buf tok : PyStr) : PyStr × List Ev :=
  let b := buf ++ tok
  match splitAtLast b with
  | none => (b, [Ev.text tok])
  | some (s, rest) =>
      (rest, Ev.text tok :: (if s.isEmpty then [] else ttsEvents tts s))

/-- Consume a list of queued tokens in arrival order. -/
def coordRun (tts : PyStr → List Nat) : PyStr → List PyStr → PyStr × List Ev
  | buf, [] => (buf, [])
  | buf, t :: ts =>
    let out := coordStep tts buf t
    let out2 := coordRun tts out.1 ts
    (out2.1, out.2 ++ out2.2)

/-- On the terminating sentinel: if the remaining buffer strips non-empty,
synthesize it (the unstripped buffer is passed, voiceBot.py line 84). -/
def flushEvents (tts : PyStr → List Nat) (buf : PyStr) : List Ev :=
  if isBlank buf then [] else ttsEvents tts buf

/-- The full output sequence of `ask(prompt, with_tts=True)` for a given
producer token stream: blank tokens are dropped by `ai_generator`, the rest
are consumed in order, and the final buffer is flushed at the sentinel. -/
def askEvents (tts : PyStr → List Nat) (tokens : List PyStr) : List Ev :=
  let toks := tokens.filter (fun c => !isBlank c)
  let out := coordRun tts [] toks
  out.2 ++ flushEvents tts out.1

/-- The text components of an output sequence, in order. -/
def textsOf (evs : List Ev) : List PyStr :=
  evs.filterMap (fun e => match e with | .text s => some s | .audio _ => none)

/-- A synthesizer that succeeds on `"B."` and fails (yields nothing) on
every other sentence. -/
def exTtsB : PyStr → List Nat := fun s => if s = "B.".toList then [7] else []

/-! ## The continuous segment assembler
(`ContinuousVAD._audio_processing_loop`, vad.py lines 131-193)

Frames are abstract identifiers; the WebRTC classifier's verdict is external
input, so the loop consumes `(frame, isSpeech)` pairs.  A surfaced segment is
recorded as its frame list (vad.py encodes it to WAV at hand-off;
`_frames_to_wav_bytes` on a non-empty frame list yields non-empty bytes, and
the default `queue.Queue()` is unbounded, so hand-off always succeeds). -/

/-- An audio frame (30 ms block), abstracted to an identifier. -/
abbrev Frame := Nat

/-- The tunables of `ContinuousVAD.__init__` (vad.py lines 104-109). -/
structure AsmParams where
  silenceThreshold : Nat
  minSpeechFrames : Nat
  preSize : Nat
deriving DecidableEq

/-- The defaults: `silence_threshold = 20`, `min_speech_frames = 10`,
`pre_speech_buffer_size = 10`. -/
def defaultParams : AsmParams := ⟨20, 10, 10⟩

/-- The mutable speech-detection state of `ContinuousVAD`. -/
structure AsmState where
  isSpeechActive : Bool
  currentSpeechFrames : List Frame
  silenceCount : Nat
  preSpeechBuffer : List Frame
deriving DecidableEq

/-- State at construction time. -/
def asmInit : AsmState := ⟨false, [], 0, []⟩

/-- Pre-speech ring buffer update (vad.py lines 175-177): append, then
`pop(0)` once if the length exceeds the capacity. -/
def ringPush (n : Nat) (buf : List Frame) (f : Frame) : List Frame :=
  let b := buf ++ [f]
  if n < b.length then b.tail else b

/-- One iteration of the processing loop on a classified frame.  Returns the
new state and the (zero or one) segments handed to the queue. -/
def asmStep (p : AsmParams) (st : AsmState) (fr : Frame × Bool) :
    AsmState × List (List Frame) :=
  if fr.2 then
    if st.isSpeechActive then
      ({ st with currentSpeechFrames := st.currentSpeechFrames ++ [fr.1],
                 silenceCount := 0 }, [])
    else
      -- speech onset: seed with the pre-speech buffer, then append the frame
      ({ st with isSpeechActive := true,
                 currentSpeechFrames := st.preSpeechBuffer ++ [fr.1],
                 silenceCount := 0 }, [])
  else
    if st.isSpeechActive then
      let cur := st.currentSpeechFrames ++ [fr.1]
      let sc := st.silenceCount + 1
      if p.silenceThreshold ≤ sc then
        ({ st with isSpeechActive := false, currentSpeechFrames := [],
                   silenceCount := 0 },
         if p.minSpeechFrames ≤ cur.length then [cur] else [])
      else
        ({ st with currentSpeechFrames := cur, silenceCount := sc }, [])
    else
      ({ st with preSpeechBuffer := ringPush p.preSize st.preSpeechBuffer fr.1 }, [])

/-- Run the loop over a finite prefix of the classified frame stream,
collecting every surfaced segment in order. -/
def asmRun (p : AsmParams) : AsmState → List (Frame × Bool) →
    AsmState × List (List Frame)
  | st, [] => (st, [])
  | st, fr :: frs =>
    let out := asmStep p st fr
    let out2 := asmRun p out.1 frs
    (out2.1, out.2 ++ out2.2)

/-- Segments surfaced from a fresh `ContinuousVAD` with default parameters. -/
def assemblerSegments (input : List (Frame × Bool)) : List (List Frame) :=
  (asmRun defaultParams asmInit input).2

/-- Length of the longest contiguous run of speech-classified frames. -/
def maxSpeechRun (input : List (Frame × Bool)) : Nat :=
  (input.foldl
    (fun acc fr => if fr.2 then (acc.1 + 1, max acc.2 (acc.1 + 1)) else (0, acc.2))
    (0, 0)).2

/-- The last `n` elements of a list (all of it when it is shorter). -/
def lastN (n : Nat) (l : List Frame) : List Frame :=
  (l.reverse.take n).reverse

/-- A single speech frame followed by `silence_threshold` non-speech frames:
its longest speech run is 1, yet a 21-frame segment is surfaced. -/
def shortRunInput : List (Frame × Bool) :=
  (0, true) :: (List.range 20).map (fun i => (i + 1, false))

/-- Two utterances: frame 100, 20 silence frames 0-19, frame 200, 20 silence
frames 50-69.  The second surfaced segment starts at its onset frame 200
with no lead-in at all, because `_reset_speech_detection` does not refill
the pre-speech buffer. -/
def twoUtteranceInput : List (Frame × Bool) :=
  (100, true) :: (List.range 20).map (fun i => (i, false)) ++
    ((200, true) :: (List.range 20).map (fun i => (i + 50, false)))

/-! ## The speech queue (vad.py line 100 and lines 163-169)

Python `queue.Queue` semantics: `maxsize = 0` means unbounded; the queue is
full iff `0 < maxsize ≤ len(items)`.  The capture loop pushes with
`put_nowait` and catches `queue.Full` by dropping the new segment. -/

/-- A `queue.Queue` holding elements of type `α`. -/
structure PyQueue (α : Type) where
  maxsize : Nat
  items : List α
deriving DecidableEq

/-- `Queue.full()`: true iff a positive bound is reached. -/
def qFull {α : Type} (q : PyQueue α) : Bool :=
  0 < q.maxsize && q.maxsize ≤ q.items.length

/-- `put_nowait`: append unless full; the Bool is false when `Full` is raised. -/
def putNowait {α : Type} (q : PyQueue α) (x : α) : PyQueue α × Bool :=
  if qFull q then (q, false) else ({ q with items := q.items ++ [x] }, true)

/-- The capture loop's push: `put_nowait` with `except queue.Full:` dropping
the new segment (vad.py lines 166-169).  Never blocks. -/
def pushSegment {α : Type} (q : PyQueue α) (x : α) : PyQueue α :=
  (putNowait q x).1

/-- The queue `ContinuousVAD.__init__` actually constructs: `queue.Queue()`,
i.e. `maxsize = 0` (unbounded). -/
def speechQueueInit : PyQueue (List Frame) := ⟨0, []⟩

/-! ## Conversation memory (`Memory.add_message`, memory.py lines 34-48) -/

/-- One entry of the conversation log. -/
structure Message where
  contextId : PyStr
  role : PyStr
  content : PyStr
  timestamp : Nat
deriving DecidableEq

/-- The in-memory state of `Memory` (the JSON file mirror is I/O). -/
structure MemoryState where
  conversations : List Message
  maxMessages : Nat
deriving DecidableEq

/-- Python `l[-n:]`: for `n = 0` this is `l[0:]`, the whole list. -/
def pyLastSlice {α : Type} (n : Nat) (l : List α) : List α :=
  if n = 0 then l else l.drop (l.length - n)

/-- `add_message`: append, then truncate to the most recent `max_messages`
entries (globally, ignoring the context id) when the count exceeds it. -/
def addMessage (st : MemoryState) (m : Message) : MemoryState :=
  let convs := st.conversations ++ [m]
  if st.maxMessages < convs.length then
    { st with conversations := pyLastSlice st.maxMessages convs }
  else
    { st with conversations := convs }

/-! ## Stopping capture (`ContinuousVAD.stop_listening`, vad.py lines 233-260)

The thread join changes no state; closing the stream and terminating the
context may raise, but both calls sit in `try/except` blocks, and the
`= None` assignments run regardless; finally `_reset_speech_detection` runs.
The two Bool parameters say whether close / terminate raised. -/

/-- The fields of `ContinuousVAD` touched by `stop_listening`. -/
structure VadCtrlState where
  isRunning : Bool
  audioStream : Option Nat
  audioContext : Option Nat
  isSpeechActive : Bool
  currentSpeechFrames : List Frame
  silenceCount : Nat
  preSpeechBuffer : List Frame
deriving DecidableEq

/-- `_reset_speech_detection` (vad.py lines 189-193): the pre-speech buffer is
NOT cleared. -/
def resetSpeechDetection (s : VadCtrlState) : VadCtrlState :=
  { s with isSpeechActive := false, currentSpeechFrames := [], silenceCount := 0 }

/-- `stop_listening`: exceptions from closing the stream (`closeErr`) or
terminating the context (`termErr`) are caught and only logged, so they do
not affect the resulting state. -/
def stopListening (closeErr termErr : Bool) (s : VadCtrlState) : VadCtrlState :=
  let s1 := { s with isRunning := false }
  let s2 := if s1.audioStream.isSome then
              let _ := closeErr  -- close() outcome is swallowed
              { s1 with audioStream := none }
            else s1
  let s3 := if s2.audioContext.isSome then
              let _ := termErr   -- terminate() outcome is swallowed
              { s2 with audioContext := none }
            else s2
  resetSpeechDetection s3

/-! ## One-shot capture (`VAD.run_vad`, vad.py lines 35-82)

The microphone stream is endless; the model consumes a finite prefix of
classified frames and returns `none` when the loop has not yet hit its break
condition within that prefix (no normal return observed).  Byte strings are
`List Nat`. -/

/-- A byte string. -/
abbrev ByteStr := List Nat

/-- Stand-in for the 44-byte RIFF/WAVE header `wave.open(...,'wb')` always
writes (here just the `RIFF` magic); `VAD._frames_to_wav_bytes` appends the
joined frames after it. -/
def wavHeader : ByteStr := [82, 73, 70, 70]

/-- `VAD._frames_to_wav_bytes` (vad.py lines 22-33): header plus payload. -/
def framesToWavBytes (frames : List ByteStr) : ByteStr :=
  wavHeader ++ frames.flatten

/-- The `while True` loop of `run_vad` with its three-part state
(`speech_frames`, `silence_count`, `speech_detected`); the break fires when
`silence_count > 20` after speech was detected. -/
def runVadLoop : List (ByteStr × Bool) → List ByteStr → Nat → Bool →
    Option (List ByteStr)
  | [], _, _, _ => none
  | fr :: rest, speechFrames, silenceCount, speechDetected =>
    if fr.2 then
      runVadLoop rest (speechFrames ++ [fr.1]) 0 true
    else if speechDetected then
      if 20 < silenceCount + 1 then some (speechFrames ++ [fr.1])
      else runVadLoop rest (speechFrames ++ [fr.1]) (silenceCount + 1) speechDetected
    else
      runVadLoop rest speechFrames silenceCount speechDetected

/-- `run_vad`: on normal loop exit, return the WAV encoding if any speech
frames were collected, else the empty byte string (vad.py lines 79-82). -/
def runVad (input : List (ByteStr × Bool)) : Option ByteStr :=
  match runVadLoop input [] 0 false with
  | none => none
  | some sf => some (if sf.isEmpty then [] else framesToWavBytes sf)

/-- A concrete capture: one speech frame, then 21 non-speech frames. -/
def runVadExInput : List (ByteStr × Bool) :=
  ([1], true) :: (List.range 21).map (fun i => ([i], false))

/-! # Helper lemmas -/

theorem defaultParams_silenceThreshold : defaultParams.silenceThreshold = 20 := rfl

theorem defaultParams_minSpeechFrames : defaultParams.minSpeechFrames = 10 := rfl

theorem defaultParams_preSize : defaultParams.preSize = 10 := rfl

theorem lastN_length_le (n : Nat) (l : List Frame) : (lastN n l).length ≤ n := by
  simp only [lastN, List.length_reverse, List.length_take]
  exact min_le_left _ _

theorem lastN_of_length_le {n : Nat} {l : List Frame} (h : l.length ≤ n) :
    lastN n l = l := by
  unfold lastN
  rw [List.take_of_length_le (by simpa using h), List.reverse_reverse]

theorem take_append_take (n : Nat) (a b : List Frame) :
    (a ++ b.take n).take n = (a ++ b).take n := by
  rw [List.take_append_eq_append_take, List.take_append_eq_append_take,
    List.take_take, inf_eq_left.mpr (Nat.sub_le n a.length)]

theorem lastN_lastN_append (n : Nat) (l l' : List Frame) :
    lastN n (lastN n l ++ l') = lastN n (l ++ l') := by
  unfold lastN
  rw [List.reverse_append, List.reverse_reverse, List.reverse_append,
    take_append_take]

theorem ringPush_eq_lastN (n : Nat) (buf : List Frame) (f : Frame)
    (h : buf.length ≤ n) :
    ringPush n buf f = lastN n (buf ++ [f]) := by
  unfold ringPush lastN
  by_cases hlt : n < (buf ++ [f]).length
  · have hbn : buf.length = n := by
      simp only [List.length_append, List.length_cons, List.length_nil] at hlt
      omega
    rw [if_pos hlt, List.reverse_append]
    cases n with
    | zero =>
        have hb : buf = [] := List.length_eq_zero.mp hbn
        subst hb; rfl
    | succ m =>
        have hbne : buf ≠ [] := by
          intro hb; subst hb; simp at hbn
        rw [List.tail_append_singleton_of_ne_nil hbne]
        simp only [List.reverse_cons, List.reverse_nil, List.nil_append,
          List.singleton_append, List.take_succ_cons, List.take_reverse]
        have hd : buf.length - m = 1 := by omega
        rw [hd]
        simp [List.drop_one]
  · rw [if_neg hlt]
    refine (lastN_of_length_le ?_).symm
    omega

theorem foldl_ringPush (n : Nat) (pre : List Frame) (buf : List Frame)
    (h : buf.length ≤ n) :
    pre.foldl (ringPush n) buf = lastN n (buf ++ pre) := by
  induction pre using List.reverseRecOn with
  | nil => simpa using (lastN_of_length_le h).symm
  | append_singleton xs x ih =>
      rw [List.foldl_concat, ih,
        ringPush_eq_lastN n _ x (lastN_length_le n _),
        lastN_lastN_append, List.append_assoc]

theorem asmRun_idle (p : AsmParams) (pre : List Frame) :
    ∀ cur sc buf, asmRun p ⟨false, cur, sc, buf⟩ (pre.map (fun f => (f, false))) =
      (⟨false, cur, sc, pre.foldl (ringPush p.preSize) buf⟩, []) := by
  induction pre with
  | nil => intro cur sc buf; rfl
  | cons f fs ih =>
      intro cur sc buf
      simp [asmRun, asmStep, ih]

theorem asmRun_active_prefix (input : List (Frame × Bool)) :
    ∀ st : AsmState, st.isSpeechActive = true →
      st.silenceCount < st.currentSpeechFrames.length →
      ∀ seg, ((asmRun defaultParams st input).2).head? = some seg →
        st.currentSpeechFrames <+: seg := by
  induction input with
  | nil => intro st _ _ seg h; simp [asmRun] at h
  | cons fr frs ih =>
      intro st hact hinv seg h
      rcases fr with ⟨f, b⟩
      simp only [asmRun] at h
      cases b with
      | true =>
          rw [show asmStep defaultParams st (f, true) =
              ({ st with currentSpeechFrames := st.currentSpeechFrames ++ [f],
                         silenceCount := 0 }, []) by simp [asmStep, hact]] at h
          simp only [List.nil_append] at h
          refine (List.prefix_append _ [f]).trans (ih _ ?_ ?_ seg h)
          · simpa using hact
          · simp
      | false =>
          by_cases hth : defaultParams.silenceThreshold ≤ st.silenceCount + 1
          · have hg : defaultParams.minSpeechFrames ≤
                st.currentSpeechFrames.length + 1 := by
              simp only [defaultParams_silenceThreshold, defaultParams_minSpeechFrames]
                at hth ⊢
              omega
            rw [show asmStep defaultParams st (f, false) =
                ({ st with isSpeechActive := false, currentSpeechFrames := [],
                           silenceCount := 0 },
                  [st.currentSpeechFrames ++ [f]]) by
              simp [asmStep, hact, hth, hg]] at h
            simp only [List.cons_append, List.nil_append, List.head?_cons,
              Option.some.injEq] at h
            exact h ▸ List.prefix_append _ [f]
          · rw [show asmStep defaultParams st (f, false) =
                ({ st with currentSpeechFrames := st.currentSpeechFrames ++ [f],
                           silenceCount := st.silenceCount + 1 }, []) by
              simp [asmStep, hact, hth]] at h
            simp only [List.nil_append] at h
            refine (List.prefix_append _ [f]).trans (ih _ ?_ ?_ seg h)
            · simpa using hact
            · simp only [List.length_append, List.length_cons, List.length_nil]
              omega

theorem asmRun_seg_length (input : List (Frame × Bool)) :
    ∀ st : AsmState,
      (st.isSpeechActive = true → st.silenceCount < st.currentSpeechFrames.length) →
      ∀ seg ∈ (asmRun defaultParams st input).2,
        defaultParams.silenceThreshold + 1 ≤ seg.length := by
  induction input with
  | nil => intro st _ seg h; simp [asmRun] at h
  | cons fr frs ih =>
      intro st hinv seg hseg
      rcases fr with ⟨f, b⟩
      simp only [asmRun, List.mem_append] at hseg
      cases hact : st.isSpeechActive with
      | false =>
          cases b with
          | true =>
              rw [show asmStep defaultParams st (f, true) =
                  ({ st with isSpeechActive := true,
                             currentSpeechFrames := st.preSpeechBuffer ++ [f],
                             silenceCount := 0 }, []) by simp [asmStep, hact]] at hseg
              rcases hseg with hseg | hseg
              · simp at hseg
              · refine ih _ ?_ seg hseg
                intro _
                simp
          | false =>
              rw [show asmStep defaultParams st (f, false) =
                  ({ st with preSpeechBuffer :=
                      ringPush defaultParams.preSize st.preSpeechBuffer f }, []) by
                simp [asmStep, hact]] at hseg
              rcases hseg with hseg | hseg
              · simp at hseg
              · refine ih _ ?_ seg hseg
                intro ha
                have ha' : st.isSpeechActive = true := ha
                rw [hact] at ha'
                exact absurd ha' (by decide)
      | true =>
          have hlen := hinv hact
          cases b with
          | true =>
              rw [show asmStep defaultParams st (f, true) =
                  ({ st with currentSpeechFrames := st.currentSpeechFrames ++ [f],
                             silenceCount := 0 }, []) by simp [asmStep, hact]] at hseg
              rcases hseg with hseg | hseg
              · simp at hseg
              · refine ih _ ?_ seg hseg
                intro _
                simp
          | false =>
              by_cases hth : defaultParams.silenceThreshold ≤ st.silenceCount + 1
              · have hg : defaultParams.minSpeechFrames ≤
                    st.currentSpeechFrames.length + 1 := by
                  simp only [defaultParams_silenceThreshold, defaultParams_minSpeechFrames]
                    at hth ⊢
                  omega
                rw [show asmStep defaultParams st (f, false) =
                    ({ st with isSpeechActive := false, currentSpeechFrames := [],
                               silenceCount := 0 },
                      [st.currentSpeechFrames ++ [f]]) by
                  simp [asmStep, hact, hth, hg]] at hseg
                rcases hseg with hseg | hseg
                · simp only [List.mem_singleton] at hseg
                  subst hseg
                  simp only [defaultParams_silenceThreshold, defaultParams_minSpeechFrames,
                    List.length_append, List.length_cons, List.length_nil] at hth ⊢
                  omega
                · refine ih _ ?_ seg hseg
                  intro ha
                  simp at ha
              · rw [show asmStep defaultParams st (f, false) =
                    ({ st with currentSpeechFrames := st.currentSpeechFrames ++ [f],
                               silenceCount := st.silenceCount + 1 }, []) by
                  simp [asmStep, hact, hth]] at hseg
                rcases hseg with hseg | hseg
                · simp at hseg
                · refine ih _ ?_ seg hseg
                  intro _
                  simp only [List.length_append, List.length_cons, List.length_nil]
                  omega

theorem asmRun_append (p : AsmParams) (a b : List (Frame × Bool)) :
    ∀ st, asmRun p st (a ++ b) =
      ((asmRun p (asmRun p st a).1 b).1,
        (asmRun p st a).2 ++ (asmRun p (asmRun p st a).1 b).2) := by
  induction a with
  | nil => intro st; simp [asmRun]
  | cons fr frs ih =>
      intro st
      simp only [List.cons_append]
      rw [show asmRun p st (fr :: (frs ++ b)) =
          ((asmRun p (asmStep p st fr).1 (frs ++ b)).1,
            (asmStep p st fr).2 ++ (asmRun p (asmStep p st fr).1 (frs ++ b)).2)
        from rfl]
      rw [ih]
      rw [show asmRun p st (fr :: frs) =
          ((asmRun p (asmStep p st fr).1 frs).1,
            (asmStep p st fr).2 ++ (asmRun p (asmStep p st fr).1 frs).2)
        from rfl]
      simp [List.append_assoc]

theorem runVadLoop_ne_nil (input : List (ByteStr × Bool)) :
    ∀ acc sc det sf, runVadLoop input acc sc det = some sf → sf ≠ [] := by
  induction input with
  | nil => intro acc sc det sf h; exact absurd h (by simp [runVadLoop])
  | cons fr rest ih =>
      intro acc sc det sf h
      simp only [runVadLoop] at h
      split at h
      · exact ih _ _ _ sf h
      · split at h
        · split at h
          · simp only [Option.some.injEq] at h
            subst h
            simp
          · exact ih _ _ _ sf h
        · exact ih _ _ _ sf h

theorem textsOf_append (a b : List Ev) : textsOf (a ++ b) = textsOf a ++ textsOf b := by
  simp [textsOf]

theorem textsOf_ttsEvents (tts : PyStr → List Nat) (s : PyStr) :
    textsOf (ttsEvents tts s) = [] := by
  simp [textsOf, ttsEvents]

theorem textsOf_flushEvents (tts : PyStr → List Nat) (buf : PyStr) :
    textsOf (flushEvents tts buf) = [] := by
  unfold flushEvents
  split
  · rfl
  · exact textsOf_ttsEvents tts buf

theorem textsOf_coordStep (tts : PyStr → List Nat) (buf t : PyStr) :
    textsOf (coordStep tts buf t).2 = [t] := by
  cases h : splitAtLast (buf ++ t) with
  | none => simp [coordStep, h, textsOf]
  | some p =>
      obtain ⟨s, rest⟩ := p
      cases hs : s.isEmpty <;> simp [coordStep, h, hs, textsOf, ttsEvents]

theorem textsOf_coordRun (tts : PyStr → List Nat) (toks : List PyStr) :
    ∀ buf, textsOf (coordRun tts buf toks).2 = toks := by
  induction toks with
  | nil => intro buf; rfl
  | cons t ts ih =>
      intro buf
      simp [coordRun, textsOf_append, textsOf_coordStep, ih]

theorem coordStep_starts_with_text (tts : PyStr → List Nat) (buf t : PyStr) :
    ∃ tl, (coordStep tts buf t).2 = Ev.text t :: tl := by
  cases h : splitAtLast (buf ++ t) with
  | none => exact ⟨[], by simp [coordStep, h]⟩
  | some p =>
      obtain ⟨s, rest⟩ := p
      exact ⟨if s.isEmpty then [] else ttsEvents tts s, by simp [coordStep, h]⟩

/-! # Claim theorems -/

/-- C1, counterexample: feeding `"Hello world. How are"` then `" you? Fine."`
does NOT emit the sentences `["Hello world.", "How are you?"]`: the second
feed splits at the LAST `'.'`, so `"How are you? Fine."` comes out as one
sentence and the remainder is empty. -/
theorem C1_splitter_counterexample :
    (feedAll ["Hello world. How are".toList, " you? Fine.".toList]).1 ≠
      ["Hello world.".toList, "How are you?".toList] := by
  decide

/-- C1, amended: per fed fragment the splitter performs at most one split, at
the last occurrence of the first terminator character (in the order
`.`, `!`, `?`) present in the pending buffer; on the example feeds it emits
`["Hello world.", "How are you? Fine."]` and the remainder is empty. -/
theorem C1_splitter_amended :
    feedAll ["Hello world. How are".toList, " you? Fine.".toList] =
      (["Hello world.".toList, "How are you? Fine.".toList], []) := by
  decide

/-- C3: with speech enabled, the producer stream `["Hi", " there. ", "Bye."]`
yields exactly text `"Hi"`, text `" there. "`, all audio for `"Hi there."`,
text `"Bye."`, then all audio for `"Bye."`, for every synthesizer. -/
theorem C3_ask_output_order (tts : PyStr → List Nat) :
    askEvents tts ["Hi".toList, " there. ".toList, "Bye.".toList] =
      [Ev.text "Hi".toList, Ev.text " there. ".toList] ++
        ttsEvents tts "Hi there.".toList ++
        [Ev.text "Bye.".toList] ++ ttsEvents tts "Bye.".toList := by
  have h : askEvents tts ["Hi".toList, " there. ".toList, "Bye.".toList] =
      ([Ev.text "Hi".toList] ++
        ((Ev.text " there. ".toList :: ttsEvents tts "Hi there.".toList) ++
          ((Ev.text "Bye.".toList :: ttsEvents tts "Bye.".toList) ++ []))) ++ [] := rfl
  rw [h]
  simp

/-- C5, counterexample: the whitespace-only token `" "` is non-empty, yet
`ai_generator` filters it out (`if chunk.strip():`), so it is never re-emitted
as a text pair. -/
theorem C5_nonempty_token_counterexample :
    " ".toList ≠ ([] : PyStr) ∧
      askEvents (fun _ => []) [" ".toList] = [] := by
  constructor
  · decide
  · decide

/-- C5, amended: every token with non-whitespace content (non-blank) is pushed
into the channel and re-emitted as a text-only pair, in arrival order; each
consumed token's text pair is emitted before any synthesis that token
triggers (the step's output starts with the text pair). -/
theorem C5_tokens_reemitted (tts : PyStr → List Nat) (tokens : List PyStr) :
    textsOf (askEvents tts tokens) = tokens.filter (fun c => !isBlank c) ∧
      ∀ buf t, ∃ tl, (coordStep tts buf t).2 = Ev.text t :: tl := by
  refine ⟨?_, coordStep_starts_with_text tts⟩
  unfold askEvents
  simp only [textsOf_append, textsOf_flushEvents, textsOf_coordRun, List.append_nil]

/-- C7: if synthesis fails for the completed sentence `"A."` (yields zero
chunks — `tts_stream_response` catches every exception), `ask` emits no audio
pair for it, raises nothing, and still emits the following sentence's text
and audio pairs. -/
theorem C7_synth_failure_isolated (tts : PyStr → List Nat)
    (hfail : tts "A.".toList = []) :
    askEvents tts ["A.".toList, "B.".toList] =
      [Ev.text "A.".toList, Ev.text "B.".toList] ++ ttsEvents tts "B.".toList := by
  have h : askEvents tts ["A.".toList, "B.".toList] =
      ((Ev.text "A.".toList :: ttsEvents tts "A.".toList) ++
        ((Ev.text "B.".toList :: ttsEvents tts "B.".toList) ++ [])) ++ [] := rfl
  have hf : tts ['A', '.'] = [] := hfail
  rw [h]
  simp [ttsEvents, hf]

/-- C7 witness: instantiated with a synthesizer that fails on `"A."` and
yields one chunk for `"B."`. -/
theorem C7_synth_failure_witness :
    askEvents exTtsB ["A.".toList, "B.".toList] =
      [Ev.text "A.".toList, Ev.text "B.".toList] ++ ttsEvents exTtsB "B.".toList :=
  C7_synth_failure_isolated exTtsB (by decide)

/-- C2, counterexample: one speech frame followed by 20 non-speech frames has
longest contiguous speech run 1 < `min_speech_frames`, yet the assembler
surfaces a segment, because the length test counts lead-in and trailing
silence frames, not the speech run. -/
theorem C2_short_run_counterexample :
    maxSpeechRun shortRunInput < defaultParams.minSpeechFrames ∧
      assemblerSegments shortRunInput ≠ [] := by
  decide

/-- C2, amended: a segment is surfaced exactly when `silence_threshold`
consecutive non-speech frames follow a speech onset and the whole assembled
buffer (lead-in + speech + trailing silence) reaches `min_speech_frames`;
since the buffer always contains the onset frame plus the 20 trailing
silence frames, every surfaced segment in fact has ≥ 21 ≥ 10 frames and the
sub-minimum discard branch never fires, while a speech run shorter than
`min_speech_frames` can still be surfaced. -/
theorem C2_surfaced_length (input : List (Frame × Bool)) (seg : List Frame)
    (hseg : seg ∈ assemblerSegments input) :
    defaultParams.minSpeechFrames ≤ seg.length ∧
      defaultParams.silenceThreshold + 1 ≤ seg.length := by
  have h := asmRun_seg_length input asmInit (by intro h; simp [asmInit] at h)
    seg hseg
  simp only [defaultParams_silenceThreshold, defaultParams_minSpeechFrames] at h ⊢
  omega

/-- C2 witness: the segment surfaced from `shortRunInput` has 21 frames. -/
theorem C2_surfaced_length_witness :
    defaultParams.minSpeechFrames ≤
        ((0 : Frame) :: (List.range 20).map (fun i => i + 1)).length ∧
      defaultParams.silenceThreshold + 1 ≤
        ((0 : Frame) :: (List.range 20).map (fun i => i + 1)).length :=
  C2_surfaced_length shortRunInput _ (by decide)

/-- C4: for any configured positive capacity, the push discipline
(`put_nowait`, dropping the new segment on `queue.Full`) keeps the queue at
or below capacity, and a push onto a full queue returns the queue unchanged
(the newest segment is the one dropped); `pushSegment` is a total function,
it never blocks. -/
theorem C4_queue_capacity {α : Type} (q : PyQueue α) (x : α)
    (hpos : 0 < q.maxsize) :
    (q.items.length ≤ q.maxsize → (pushSegment q x).items.length ≤ q.maxsize) ∧
      (qFull q = true → pushSegment q x = q) := by
  unfold pushSegment putNowait
  by_cases hf : qFull q = true
  · rw [if_pos hf]
    exact ⟨fun h => h, fun _ => rfl⟩
  · rw [if_neg hf]
    have hlt : q.items.length < q.maxsize := by
      simp only [qFull, Bool.and_eq_true, decide_eq_true_eq] at hf
      omega
    refine ⟨fun _ => ?_, fun hc => absurd hc hf⟩
    show (q.items ++ [x]).length ≤ q.maxsize
    simp only [List.length_append, List.length_cons, List.length_nil]
    omega

/-- C4 witness: a full queue of capacity 2 is left unchanged by a push. -/
theorem C4_queue_capacity_witness :
    ((⟨2, [[1], [2]]⟩ : PyQueue (List Frame)).items.length ≤ 2 →
      (pushSegment (⟨2, [[1], [2]]⟩ : PyQueue (List Frame)) [3]).items.length ≤ 2) ∧
      (qFull (⟨2, [[1], [2]]⟩ : PyQueue (List Frame)) = true →
        pushSegment (⟨2, [[1], [2]]⟩ : PyQueue (List Frame)) [3] =
          ⟨2, [[1], [2]]⟩) :=
  C4_queue_capacity ⟨2, [[1], [2]]⟩ [3] (by decide)

/-- C6, counterexample: in `twoUtteranceInput`, the ten frames immediately
before the second onset (frame 200) are the silence frames 10-19, but the
second surfaced segment starts directly with frame 200 and has no lead-in:
`_reset_speech_detection` never refills the pre-speech buffer, and the
frames consumed into the first segment are gone. -/
theorem C6_leadin_counterexample :
    assemblerSegments twoUtteranceInput =
      [100 :: (List.range 20).map (fun i => i),
        200 :: (List.range 20).map (fun i => i + 50)] ∧
      ((assemblerSegments twoUtteranceInput).getD 1 []).take 10 ≠
        ((List.range 20).map (fun i => i)).drop 10 := by
  decide

/-- C6, amended: the FIRST surfaced segment does begin with the (up to)
`pre_speech_buffer_size` frames captured immediately before its onset frame
(all frames before the first onset are idle non-speech frames), followed by
the onset frame; later segments only get whatever the pre-speech buffer
holds, which excludes frames consumed into an earlier segment. -/
theorem C6_first_segment_leadin (pre : List Frame) (onset : Frame)
    (rest : List (Frame × Bool)) (seg : List Frame)
    (h : (assemblerSegments
        ((pre.map (fun f => (f, false))) ++ (onset, true) :: rest)).head? =
      some seg) :
    (lastN defaultParams.preSize pre ++ [onset]) <+: seg := by
  unfold assemblerSegments at h
  rw [show asmInit = (⟨false, [], 0, []⟩ : AsmState) from rfl] at h
  rw [asmRun_append] at h
  rw [asmRun_idle] at h
  rw [foldl_ringPush defaultParams.preSize pre [] (by simp)] at h
  simp only [List.nil_append] at h
  rw [show asmRun defaultParams ⟨false, [], 0, lastN defaultParams.preSize pre⟩
        ((onset, true) :: rest) =
      ((asmRun defaultParams
          ⟨true, lastN defaultParams.preSize pre ++ [onset], 0,
            lastN defaultParams.preSize pre⟩ rest).1,
        [] ++ (asmRun defaultParams
          ⟨true, lastN defaultParams.preSize pre ++ [onset], 0,
            lastN defaultParams.preSize pre⟩ rest).2) from by
    simp [asmRun, asmStep]] at h
  simp only [List.nil_append] at h
  exact asmRun_active_prefix rest _ rfl (by simp) seg h

/-- C6 witness: from three idle frames 1,2,3 and onset 9, the first segment
starts with `[1, 2, 3, 9]`. -/
theorem C6_first_segment_leadin_witness :
    (lastN defaultParams.preSize [1, 2, 3] ++ [9]) <+:
      (1 :: 2 :: 3 :: 9 :: (List.range 20).map (fun i => i + 30)) :=
  C6_first_segment_leadin [1, 2, 3] 9
    ((List.range 20).map (fun i => (i + 30, false)))
    (1 :: 2 :: 3 :: 9 :: (List.range 20).map (fun i => i + 30))
    (by decide)

/-- C8: after `add_message` (with a positive configured maximum) the log is
exactly the most recent `max_messages` entries of the appended log — a
suffix, so insertion order is preserved and truncation is global, ignoring
`context_id` — and its length never exceeds `max_messages`. -/
theorem C8_add_message_truncates (st : MemoryState) (m : Message)
    (hpos : 0 < st.maxMessages) :
    (addMessage st m).conversations =
        pyLastSlice st.maxMessages (st.conversations ++ [m]) ∧
      (addMessage st m).conversations.length ≤ st.maxMessages ∧
      (addMessage st m).conversations <:+ (st.conversations ++ [m]) := by
  have hmz : st.maxMessages ≠ 0 := Nat.pos_iff_ne_zero.mp hpos
  unfold addMessage
  by_cases hb : st.maxMessages < (st.conversations ++ [m]).length
  · rw [if_pos hb]
    dsimp only
    simp only [pyLastSlice, if_neg hmz]
    refine ⟨by trivial, ?_, List.drop_suffix _ _⟩
    simp only [List.length_drop]
    omega
  · rw [if_neg hb]
    dsimp only
    simp only [pyLastSlice, if_neg hmz]
    have h0 : (st.conversations ++ [m]).length - st.maxMessages = 0 := by omega
    rw [h0, List.drop_zero]
    exact ⟨by trivial, by omega, List.suffix_refl _⟩

/-- C8 witness: capacity 2, two stored messages, adding a third keeps the two
most recent. -/
theorem C8_add_message_truncates_witness :
    (addMessage ⟨[⟨"a".toList, "user".toList, "x".toList, 0⟩,
        ⟨"b".toList, "assistant".toList, "y".toList, 1⟩], 2⟩
        ⟨"a".toList, "user".toList, "z".toList, 2⟩).conversations =
        pyLastSlice 2
          ([⟨"a".toList, "user".toList, "x".toList, 0⟩,
            ⟨"b".toList, "assistant".toList, "y".toList, 1⟩] ++
            [⟨"a".toList, "user".toList, "z".toList, 2⟩]) ∧
      (addMessage ⟨[⟨"a".toList, "user".toList, "x".toList, 0⟩,
        ⟨"b".toList, "assistant".toList, "y".toList, 1⟩], 2⟩
        ⟨"a".toList, "user".toList, "z".toList, 2⟩).conversations.length ≤ 2 ∧
      (addMessage ⟨[⟨"a".toList, "user".toList, "x".toList, 0⟩,
        ⟨"b".toList, "assistant".toList, "y".toList, 1⟩], 2⟩
        ⟨"a".toList, "user".toList, "z".toList, 2⟩).conversations <:+
        ([⟨"a".toList, "user".toList, "x".toList, 0⟩,
          ⟨"b".toList, "assistant".toList, "y".toList, 1⟩] ++
          [⟨"a".toList, "user".toList, "z".toList, 2⟩]) :=
  C8_add_message_truncates
    ⟨[⟨"a".toList, "user".toList, "x".toList, 0⟩,
      ⟨"b".toList, "assistant".toList, "y".toList, 1⟩], 2⟩
    ⟨"a".toList, "user".toList, "z".toList, 2⟩ (by decide)

/-- C9: `stop_listening` raises nothing (it is total even when closing the
stream or terminating the context fails, both being caught), leaves the
capture not running with speech detection reset and both audio resources
`None`, and running it a second time (with any error outcomes) changes
nothing. -/
theorem C9_stop_idempotent (e1 e2 e3 e4 : Bool) (s : VadCtrlState) :
    (stopListening e1 e2 s).isRunning = false ∧
      (stopListening e1 e2 s).audioStream = none ∧
      (stopListening e1 e2 s).audioContext = none ∧
      (stopListening e1 e2 s).isSpeechActive = false ∧
      (stopListening e1 e2 s).currentSpeechFrames = [] ∧
      (stopListening e1 e2 s).silenceCount = 0 ∧
      stopListening e3 e4 (stopListening e1 e2 s) = stopListening e1 e2 s := by
  rcases s with ⟨r, strm, ctx, act, cur, sc, pre⟩
  unfold stopListening resetSpeechDetection
  cases strm <;> cases ctx <;> simp

/-- C10: whenever `run_vad` returns normally, the loop broke after speech was
detected, so the collected frame list is non-empty, the `b""` fallback is
not taken, and the returned WAV byte buffer is non-empty. -/
theorem C10_run_vad_nonempty (input : List (ByteStr × Bool)) (bs : ByteStr)
    (h : runVad input = some bs) :
    (∃ sf : List ByteStr, sf ≠ [] ∧ bs = framesToWavBytes sf) ∧ bs ≠ [] := by
  unfold runVad at h
  split at h
  · exact absurd h (by simp)
  · rename_i sf hl
    have hne := runVadLoop_ne_nil input [] 0 false sf hl
    rw [if_neg (by simpa [List.isEmpty_iff] using hne)] at h
    have hbs : bs = framesToWavBytes sf := by
      injection h with h'
      exact h'.symm
    refine ⟨⟨sf, hne, hbs⟩, ?_⟩
    rw [hbs]
    simp [framesToWavBytes, wavHeader]

/-- C10 witness: one speech frame then 21 non-speech frames gives a normal
return with a non-empty WAV buffer of 22 frames. -/
theorem C10_run_vad_nonempty_witness :
    (∃ sf : List ByteStr, sf ≠ [] ∧
        framesToWavBytes ([1] :: (List.range 21).map (fun i => [i])) =
          framesToWavBytes sf) ∧
      framesToWavBytes ([1] :: (List.range 21).map (fun i => [i])) ≠ [] :=
  C10_run_vad_nonempty runVadExInput
    (framesToWavBytes ([1] :: (List.range 21).map (fun i => [i]))) (by decide)

end VoiceBotSpec
